import Mathlib

/-!
Shallow embedding of `src/app.py` (AltitudeAI lead-scoring demo service).

The service stores `Company` rows, each owning a list of `Signal` rows
(the SQLAlchemy relationship `Company.signals`), seeds them once at
startup (`init_sample_data`), and serves read-only JSON endpoints:
`/api/companies`, `/api/stats`, `/api/states`, `/api/industries`,
`/api/ai-insights` and `POST /api/search`.

The store is modelled as the list of companies with their signals
embedded (mirroring the ORM relationship; a `Signal`'s `company_id`
foreign key is represented by nesting the signal in its company).
`Signal.signal_date` (a wall-clock timestamp defaulting to
`datetime.utcnow`) is not represented: no route logic reads it.
`confidence_score` (a Python float in [0,1]) is modelled as a rational;
no route logic in this iteration reads it either.
-/

namespace AltitudeAI

/-- `Signal` model (src/app.py, class Signal): type label, source label,
free-text description, confidence score. -/
structure Signal where
  signal_type : String
  source : String
  description : String
  confidence_score : ℚ
deriving Repr, DecidableEq

/-- `Company` model (src/app.py, class Company) with its one-to-many
`signals` relationship embedded. -/
structure Company where
  id : Nat
  name : String
  website : String
  industry : String
  size : String
  revenue : String
  country : String
  state : String
  city : String
  signals : List Signal
deriving Repr, DecidableEq

/-- The per-signal-type weight dictionary lookup
`weights.get(signal.signal_type, 10)` inside `compute_buying_intent`:
contract 30, expansion 25, hiring 20, tech_mention 15, default 10. -/
def signalWeight (t : String) : Nat :=
  if t = "contract" then 30
  else if t = "expansion" then 25
  else if t = "hiring" then 20
  else if t = "tech_mention" then 15
  else 10

/-- `Company.compute_buying_intent`: start from the base 35, add the
weight of each signal's type, cap at 99 (`min(score, 99)`). -/
def Company.compute_buying_intent (c : Company) : Nat :=
  min (c.signals.foldl (fun score s => score + signalWeight s.signal_type) 35) 99

/-- `issubset` on the signal-type keys of the `summaries` dictionary:
every element of the key `ks` occurs among the company's signal types
`ts`.  (Python frozensets compare as sets, so list duplicates and order
are irrelevant, matching `List.all ∘ contains`.) -/
def listSubset (ks ts : List String) : Bool :=
  ks.all fun k => ts.contains k

/-- The five canned paragraphs of `Company.compute_ai_summary`, keyed by
frozensets of signal types, in the dictionary's insertion order. -/
def summaryHiringContract (c : Company) : String :=
  s!"{c.name} is showing strong expansion signals. Recent contract awards combined with active network engineering recruitment strongly indicate upcoming infrastructure procurement. AI confidence: High priority target for Q1 outreach."

def summaryHiring (c : Company) : String :=
  s!"AI detected active hiring of OT/IT network specialists at {c.name}. This pattern correlates with 78% probability of infrastructure investment within 90 days."

def summaryContract (c : Company) : String :=
  s!"Government contract data reveals {c.name} recently secured industrial automation funding. AI analysis indicates a procurement window is open for network infrastructure components."

def summaryExpansion (c : Company) : String :=
  s!"{c.name} announced facility expansion. AI cross-referenced facility size increase with historical network upgrade patterns — high likelihood of industrial Ethernet refresh cycle."

def summaryTechMention (c : Company) : String :=
  s!"AI scraped recent mentions of industrial networking technology at {c.name}. Language analysis suggests active evaluation phase — recommend early engagement."

/-- The default fallback paragraph of `compute_ai_summary`. -/
def summaryDefault (c : Company) : String :=
  s!"AI analysis of {c.name} indicates a moderate buying intent profile. Monitoring {c.signals.length} active signal(s) across {c.industry} sector. Recommend adding to watch list for next 30-day review cycle."

/-- The local `signal_types = [s.signal_type for s in self.signals]`
of `compute_ai_summary`, hoisted to a definition. -/
def Company.signal_types (c : Company) : List String :=
  c.signals.map (·.signal_type)

/-- `Company.compute_ai_summary`: iterate over the `summaries` dict in
insertion order and return the first value whose key satisfies
`k.issubset(key) or k == key` (equal frozensets are subsets of each
other, so the `or k == key` clause is subsumed by `issubset`); fall back
to the default paragraph. -/
def Company.compute_ai_summary (c : Company) : String :=
  if listSubset ["hiring", "contract"] c.signal_types then summaryHiringContract c
  else if listSubset ["hiring"] c.signal_types then summaryHiring c
  else if listSubset ["contract"] c.signal_types then summaryContract c
  else if listSubset ["expansion"] c.signal_types then summaryExpansion c
  else if listSubset ["tech_mention"] c.signal_types then summaryTechMention c
  else summaryDefault c

/-- `Company.compute_recommended_action`: threshold the intent score. -/
def Company.compute_recommended_action (c : Company) : String :=
  let score := c.compute_buying_intent
  if 75 ≤ score then
    "⚡ AI Recommendation: Contact immediately — high intent window is active (est. 30–60 days)"
  else if 55 ≤ score then
    "📅 AI Recommendation: Schedule discovery call within 2 weeks — signals are warming"
  else
    "👁 AI Recommendation: Add to monitoring queue — intent score building"

/-! ### String helpers: Python's `in` (substring) and `int(...)` parsing -/

/-- `hasPrefixB sub l`: `sub` is a prefix of `l` (character lists). -/
def hasPrefixB : List Char → List Char → Bool
  | [], _ => true
  | _ :: _, [] => false
  | a :: as, b :: bs => a == b && hasPrefixB as bs

/-- `hasSub sub l`: `sub` occurs as a contiguous sublist of `l`
(Python's `sub in l` on strings). -/
def hasSub (sub : List Char) : List Char → Bool
  | [] => sub.isEmpty
  | l@(_ :: t) => hasPrefixB sub l || hasSub sub t

/-- Python's substring test `pat in s`. -/
def strContains (s pat : String) : Bool :=
  hasSub pat.data s.data

/-- ASCII lower-casing, character by character.  Models Python's
`str.lower()` and the case folding of SQL `ILIKE`: all strings the
service compares (seed data fields and recognized keywords) are ASCII
where case matters. -/
def lowerStr (s : String) : String :=
  ⟨s.data.map Char.toLower⟩

/-- The case-insensitive-substring predicate of SQLAlchemy's
`column.ilike(f'%{pat}%')`. -/
def ilikeContains (s pat : String) : Bool :=
  strContains (lowerStr s) (lowerStr pat)

/-- Whitespace stripped by Python's `int(str)` before parsing
(ASCII whitespace; Python also strips some unicode spaces, which do not
affect the claims here). -/
def isPySpace (c : Char) : Bool :=
  c = ' ' || c = '\t' || c = '\n' || c = '\r' || c = '\x0b' || c = '\x0c'

/-- Digit run of Python's `int(str)`: digits with single underscores
allowed between digits. `acc` is the value parsed so far. -/
def digitsCore (acc : Nat) : List Char → Option Nat
  | [] => some acc
  | c :: cs =>
    if c.isDigit then digitsCore (acc * 10 + (c.toNat - 48)) cs
    else if c = '_' then
      match cs with
      | d :: _ => if d.isDigit then digitsCore acc cs else none
      | [] => none
    else none

/-- An unsigned integer literal: a digit followed by `digitsCore`. -/
def parseUnsigned : List Char → Option Nat
  | [] => none
  | c :: cs => if c.isDigit then digitsCore (c.toNat - 48) cs else none

/-- Python's `int(str)` as a partial function: `some n` when the string
parses, `none` when `int` raises `ValueError`. -/
def parsePyInt (s : String) : Option Int :=
  let cs := ((s.data.dropWhile isPySpace).reverse.dropWhile isPySpace).reverse
  match cs with
  | '+' :: rest => (parseUnsigned rest).map Int.ofNat
  | '-' :: rest => (parseUnsigned rest).map fun n => -(n : Int)
  | rest => (parseUnsigned rest).map Int.ofNat

/-! ### Sorting

`companies.sort(key=lambda c: c.compute_buying_intent(), reverse=True)`:
a stable sort by intent score, descending.  Modelled by a stable
insertion sort: an element goes in front of the already-placed later
elements as soon as their score does not exceed its own. -/

def insertDesc (c : Company) : List Company → List Company
  | [] => [c]
  | d :: ds =>
    if d.compute_buying_intent ≤ c.compute_buying_intent then c :: d :: ds
    else d :: insertDesc c ds

def sortByIntentDesc (l : List Company) : List Company :=
  l.foldr insertDesc []

/-! ### Seed data (`init_sample_data`)

The hardcoded seed: 8 companies and 12 signals; each `Signal` row's
`company_id` (1..8) attaches it to the company with that seed position,
which is how the ORM relationship materialises them. -/

def seedCompanies : List Company :=
  [ { id := 1, name := "Advanced Manufacturing Solutions", website := "ams-industrial.com",
      industry := "Manufacturing", size := "200-500", revenue := "$50M–$100M",
      country := "USA", state := "Michigan", city := "Detroit",
      signals :=
        [ { signal_type := "hiring", source := "indeed.com",
            description := "Hiring Senior Network Engineer with Cisco IE-4000 series experience",
            confidence_score := mkRat 85 100 },
          { signal_type := "contract", source := "sam.gov",
            description := "Awarded $2.5M DOD smart manufacturing upgrade contract",
            confidence_score := mkRat 95 100 } ] },
    { id := 2, name := "Precision Automation Corp", website := "precisionauto.com",
      industry := "Automation", size := "500-1000", revenue := "$100M–$500M",
      country := "USA", state := "Ohio", city := "Cleveland",
      signals :=
        [ { signal_type := "expansion", source := "press release",
            description := "Announced 120,000 sq ft facility expansion in Austin, TX",
            confidence_score := mkRat 90 100 },
          { signal_type := "hiring", source := "linkedin.com",
            description := "3 open roles for OT Security and Industrial Network Architects",
            confidence_score := mkRat 80 100 } ] },
    { id := 3, name := "Industrial IoT Systems", website := "iiot-sys.com",
      industry := "Technology", size := "50-200", revenue := "$10M–$50M",
      country := "USA", state := "Texas", city := "Houston",
      signals :=
        [ { signal_type := "tech_mention", source := "linkedin.com",
            description := "Posted case study on implementing EtherNet/IP across 4 plant floors",
            confidence_score := mkRat 75 100 } ] },
    { id := 4, name := "Smart Factory Solutions", website := "smartfactory.io",
      industry := "Manufacturing", size := "1000-5000", revenue := "$500M–$1B",
      country := "USA", state := "California", city := "San Jose",
      signals :=
        [ { signal_type := "hiring", source := "indeed.com",
            description := "Multiple openings for OT Security Specialists and SCADA Engineers",
            confidence_score := mkRat 88 100 },
          { signal_type := "expansion", source := "company website",
            description := "New smart factory campus announced — Phase 2 network buildout planned",
            confidence_score := mkRat 82 100 } ] },
    { id := 5, name := "Process Control Industries", website := "pci-controls.com",
      industry := "Process Control", size := "500-1000", revenue := "$100M–$500M",
      country := "USA", state := "Pennsylvania", city := "Pittsburgh",
      signals :=
        [ { signal_type := "contract", source := "sam.gov",
            description := "Won $1.8M EPA environmental monitoring network upgrade contract",
            confidence_score := mkRat 91 100 } ] },
    { id := 6, name := "Midwest Utilities Group", website := "mug-utilities.com",
      industry := "Utilities", size := "200-500", revenue := "$50M–$100M",
      country := "USA", state := "Illinois", city := "Chicago",
      signals :=
        [ { signal_type := "hiring", source := "indeed.com",
            description := "Hiring Network Operations Manager with industrial protocol expertise",
            confidence_score := mkRat 78 100 } ] },
    { id := 7, name := "Gulf Coast Refinery Tech", website := "gcrt.com",
      industry := "Oil & Gas", size := "1000-5000", revenue := "$500M–$1B",
      country := "USA", state := "Texas", city := "Beaumont",
      signals :=
        [ { signal_type := "tech_mention", source := "industry publication",
            description := "Mentioned Profinet and HART protocol modernization in annual report",
            confidence_score := mkRat 72 100 },
          { signal_type := "contract", source := "state tender",
            description := "Awarded refinery automation modernization project worth $4.2M",
            confidence_score := mkRat 93 100 } ] },
    { id := 8, name := "NovaStar Logistics", website := "novastarlogistics.com",
      industry := "Transportation", size := "500-1000", revenue := "$100M–$500M",
      country := "USA", state := "Georgia", city := "Atlanta",
      signals :=
        [ { signal_type := "expansion", source := "press release",
            description := "Opening 3 new distribution hubs requiring network buildout",
            confidence_score := mkRat 86 100 } ] } ]

/-- `init_sample_data`: if the store already holds a company
(`Company.query.first() is not None`), return unchanged; otherwise add
the hardcoded seed. -/
def init_sample_data (db : List Company) : List Company :=
  if db.isEmpty then seedCompanies else db

/-! ### `/api/companies` (`get_companies`)

Query parameters arrive as strings, `''` when absent (`request.args.get(..., '')`).
Truthiness checks (`if state:`) are `≠ ""` tests.  The `join(Signal)`
filter keeps companies having a signal of the requested type.  The
`min_intent` filter runs post-query inside `try/except ValueError`:
when `int(min_intent)` fails to parse the filter is skipped. -/

/-- `if state: query = query.filter(Company.state.ilike(f'%{state}%'))`. -/
def filterState (l : List Company) (state : String) : List Company :=
  if state = "" then l else l.filter fun c => ilikeContains c.state state

/-- `if industry: query = query.filter(Company.industry.ilike(f'%{industry}%'))`. -/
def filterIndustry (l : List Company) (industry : String) : List Company :=
  if industry = "" then l else l.filter fun c => ilikeContains c.industry industry

/-- `if size: query = query.filter(Company.size == size)`. -/
def filterSize (l : List Company) (size : String) : List Company :=
  if size = "" then l else l.filter fun c => c.size == size

/-- `if signal_type: query = query.join(Signal).filter(Signal.signal_type == signal_type)`:
keeps the companies having a signal of the requested type. -/
def filterSignalType (l : List Company) (signal_type : String) : List Company :=
  if signal_type = "" then l
  else l.filter fun c => c.signals.any fun s => s.signal_type == signal_type

/-- The post-query `min_intent` stage, inside `try/except ValueError`:
when `int(min_intent)` fails to parse, the filter is skipped. -/
def filterMinIntent (l : List Company) (min_intent : String) : List Company :=
  if min_intent = "" then l
  else
    match parsePyInt min_intent with
    | some threshold => l.filter fun c => threshold ≤ (c.compute_buying_intent : Int)
    | none => l

def get_companies (db : List Company)
    (state industry size signal_type min_intent : String) : List Company :=
  sortByIntentDesc
    (filterMinIntent
      (filterSignalType (filterSize (filterIndustry (filterState db state) industry) size)
        signal_type)
      min_intent)

/-! ### `/api/ai-insights` (`get_ai_insights`) -/

/-- The filtered company set of `get_ai_insights`, with its fallback:
if no companies match the filters, use the full dataset. -/
def scopedCompanies (db : List Company)
    (state industry signal_type : String) : List Company :=
  let filtered := filterSignalType (filterIndustry (filterState db state) industry) signal_type
  if filtered.isEmpty then db else filtered

/-- Insight block 1 of `get_ai_insights`: the Intent Overview, always
appended, in its high-intent variant (confidence 0.91) when some scoped
company scores ≥ 70 and its no-high-intent variant (confidence 0.78)
otherwise. -/
def overviewInsight (companies : List Company) : List (String × ℚ) :=
  if 0 < (companies.filter fun c => 70 ≤ c.compute_buying_intent).length then
    [("Intent Overview", mkRat 91 100)]
  else
    [("Intent Overview", mkRat 78 100)]

/-- Insight block 2: appended when the scope has hiring signals. -/
def hiringInsight (all_signals : List Signal) : List (String × ℚ) :=
  if (all_signals.filter fun s => s.signal_type == "hiring").isEmpty then []
  else [("Hiring Signal", mkRat 89 100)]

/-- Insight block 3: contract insight when the scope has contract
signals, its empty-scope variant when `signal_type == 'contract'` was
requested, nothing otherwise. -/
def contractInsight (all_signals : List Signal) (signal_type : String) :
    List (String × ℚ) :=
  if ¬ (all_signals.filter fun s => s.signal_type == "contract").isEmpty then
    [("Contract Intelligence", mkRat 95 100)]
  else if signal_type = "contract" then [("Contract Intelligence", mkRat 82 100)]
  else []

/-- Insight block 4: appended when the scope has expansion signals. -/
def expansionInsight (all_signals : List Signal) : List (String × ℚ) :=
  if (all_signals.filter fun s => s.signal_type == "expansion").isEmpty then []
  else [("Expansion Alert", mkRat 86 100)]

/-- Insight block 5: geographic focus when no state filter is active
and more than one distinct state is in scope, else sector focus under
the analogous industry condition. -/
def geoInsight (companies : List Company) (state industry : String) :
    List (String × ℚ) :=
  if state = "" ∧ 1 < ((companies.map (·.state)).dedup).length then
    [("Geographic Opportunity", mkRat 88 100)]
  else if industry = "" ∧ 1 < ((companies.map (·.industry)).dedup).length then
    [("Sector Focus", mkRat 84 100)]
  else []

/-- Insight block 6: appended when the scope has tech_mention signals. -/
def techInsight (all_signals : List Signal) : List (String × ℚ) :=
  if (all_signals.filter fun s => s.signal_type == "tech_mention").isEmpty then []
  else [("Technology Signal", mkRat 80 100)]

/-- The insight list built by `get_ai_insights`: blocks 1–6 in order,
the query-scoped insight inserted at position 0 when a `query`
parameter is present, capped to 4 by `insights[:4]`.  Each insight is
modelled by its `insight_type` and `confidence` fields, which uniquely
identify every appended variant; the `title`/`description` strings
interpolate the same scoped data and affect neither which insights
appear nor how many. -/
def get_ai_insights (db : List Company)
    (state industry signal_type query_text : String) : List (String × ℚ) :=
  let companies := scopedCompanies db state industry signal_type
  let all_signals := companies.foldl (fun acc c => acc ++ c.signals) []
  let insights :=
    overviewInsight companies ++ hiringInsight all_signals
      ++ contractInsight all_signals signal_type ++ expansionInsight all_signals
      ++ geoInsight companies state industry ++ techInsight all_signals
  (if query_text = "" then insights
   else ("AI Search Result", mkRat 93 100) :: insights).take 4

/-! ### `POST /api/search` (`ai_search`)

The handler lower-cases the free-text query, keyword-spots filters,
applies them (note: the state filter here is exact equality, the
industry filter is `ilike`), then filters by `min_intent` when set and
sorts by intent score descending. -/

/-- The filter dict built by `ai_search` from the lower-cased query:
`(min_intent, signal_type, state, industry)`, each `none` when unset. -/
def aiSearchFilters (query : String) :
    Option Nat × Option String × Option String × Option String :=
  let min_intent :=
    if ["high intent", "ready to buy", "hot"].any (fun w => strContains query w) then some 70
    else none
  let signal_type :=
    if ["high intent", "ready to buy", "hot"].any (fun w => strContains query w) then none
    else if ["hiring", "recruiting"].any (fun w => strContains query w) then some "hiring"
    else if ["contract", "government", "federal"].any (fun w => strContains query w) then some "contract"
    else if ["expanding", "expansion", "growing"].any (fun w => strContains query w) then some "expansion"
    else none
  let state_map := [("michigan", "Michigan"), ("ohio", "Ohio"), ("texas", "Texas"),
                    ("california", "California"), ("pennsylvania", "Pennsylvania"),
                    ("illinois", "Illinois"), ("georgia", "Georgia")]
  let state := state_map.foldl
    (fun acc kv => if strContains query kv.1 then some kv.2 else acc) none
  let industry_map := [("manufactur", "Manufacturing"), ("automat", "Automation"),
                       ("utilities", "Utilities"), ("oil", "Oil & Gas"),
                       ("transport", "Transportation")]
  let industry := industry_map.foldl
    (fun acc kv => if strContains query kv.1 then some kv.2 else acc) none
  (min_intent, signal_type, state, industry)

/-- The (ordered) company list built by `ai_search` for a raw query:
filters applied, then sorted by intent score descending. -/
def aiSearchCompanies (db : List Company) (rawQuery : String) : List Company :=
  let query := lowerStr rawQuery
  let f := aiSearchFilters query
  let q1 := match f.2.2.1 with
            | some st => db.filter fun c => c.state == st
            | none => db
  let q2 := match f.2.2.2 with
            | some ind => q1.filter fun c => ilikeContains c.industry ind
            | none => q1
  let q3 := match f.2.1 with
            | some t => q2.filter fun c => c.signals.any fun s => s.signal_type == t
            | none => q2
  let q4 := match f.1 with
            | some m => q3.filter fun c => m ≤ c.compute_buying_intent
            | none => q3
  sortByIntentDesc q4

/-! ### Endpoint handlers with explicit store state

Each route handler is modelled as `store → store × response`.  The
route bodies in `src/app.py` issue only ORM reads (`query.all`,
`query.count`, `query.filter`): none calls `db.session.add`,
`db.session.delete` or any other mutation, so each handler returns the
store it was given alongside its computed response. -/

/-- `/api/stats` response: `(total_companies, total_signals,
high_intent_companies, avg_buying_intent)`. -/
def get_stats (db : List Company) :
    List Company × (Nat × Nat × Nat × Nat) :=
  let scores := db.map (·.compute_buying_intent)
  let high := (scores.filter fun s => 70 ≤ s).length
  let avg := if db.isEmpty then 0 else (scores.sum + db.length / 2) / db.length
  (db, (db.length, (db.foldl (fun n c => n + c.signals.length) 0), high, avg))

/-- `/api/companies` handler. -/
def getCompaniesEndpoint (db : List Company)
    (state industry size signal_type min_intent : String) :
    List Company × List Company :=
  (db, get_companies db state industry size signal_type min_intent)

/-- `/api/states` handler: sorted distinct non-empty states. -/
def getStatesEndpoint (db : List Company) : List Company × List String :=
  (db, ((db.map (·.state)).dedup.filter fun s => s ≠ "").mergeSort (· ≤ ·))

/-- `/api/industries` handler: sorted distinct non-empty industries. -/
def getIndustriesEndpoint (db : List Company) : List Company × List String :=
  (db, ((db.map (·.industry)).dedup.filter fun s => s ≠ "").mergeSort (· ≤ ·))

/-- `/api/ai-insights` handler. -/
def getAiInsightsEndpoint (db : List Company)
    (state industry signal_type query_text : String) :
    List Company × List (String × ℚ) :=
  (db, get_ai_insights db state industry signal_type query_text)

/-- `POST /api/search` handler. -/
def aiSearchEndpoint (db : List Company) (rawQuery : String) :
    List Company × List Company :=
  (db, aiSearchCompanies db rawQuery)

/-! ## Theorems -/

/-- The accumulation loop of `compute_buying_intent` is the base plus
the sum of the per-signal weights. -/
lemma foldl_weight_eq (l : List Signal) (a : Nat) :
    l.foldl (fun score s => score + signalWeight s.signal_type) a
      = a + (l.map fun s => signalWeight s.signal_type).sum := by
  induction l generalizing a with
  | nil => simp
  | cons s t ih => simp only [List.foldl_cons, List.map_cons, List.sum_cons, ih]; omega

/-- Every weight the loop can add is at least the default 10. -/
lemma signalWeight_ge_ten (t : String) : 10 ≤ signalWeight t := by
  unfold signalWeight
  split <;> try omega
  split <;> try omega
  split <;> try omega
  split <;> omega

/-- C1: for every `Company`, `compute_buying_intent` is
`min(base + Σ weight(signal.type), cap)` with base 35 (within 30–35),
cap 99 (within 99–100), the recognized weights contract 30,
expansion 25, hiring 20, tech_mention 15, and every type outside the
fixed vocabulary contributing the default weight 10 rather than being
rejected. -/
theorem buying_intent_spec :
    (∀ c : Company,
       c.compute_buying_intent
         = min (35 + ((c.signals.map fun s => signalWeight s.signal_type).sum)) 99) ∧
    ((30 ≤ 35 ∧ 35 ≤ 35) ∧ (99 ≤ 99 ∧ 99 ≤ 100)) ∧
    signalWeight "contract" = 30 ∧ signalWeight "expansion" = 25 ∧
    signalWeight "hiring" = 20 ∧ signalWeight "tech_mention" = 15 ∧
    (∀ t : String, t ∉ ["contract", "expansion", "hiring", "tech_mention"] →
       signalWeight t = 10) := by
  refine ⟨fun c => ?_, by omega, by decide, by decide, by decide, by decide, fun t ht => ?_⟩
  · rw [Company.compute_buying_intent, foldl_weight_eq]
  · simp only [List.mem_cons, List.not_mem_nil, or_false, not_or] at ht
    obtain ⟨h1, h2, h3, h4⟩ := ht
    rw [signalWeight, if_neg h1, if_neg h2, if_neg h3, if_neg h4]

/-- Witness for C1: an unrecognized signal type gets the default
weight, at the concrete type string "funding". -/
theorem buying_intent_spec_witness : signalWeight "funding" = 10 :=
  buying_intent_spec.2.2.2.2.2.2 "funding" (by decide)

/-- C2: appending any signal (of any type) to a company's signal list
never lowers `compute_buying_intent`, and the score never exceeds the
cap 99. -/
theorem intent_monotone_and_capped :
    ∀ (c : Company) (s : Signal),
      c.compute_buying_intent
        ≤ Company.compute_buying_intent { c with signals := c.signals ++ [s] } ∧
      c.compute_buying_intent ≤ 99 := by
  intro c s
  have h1 := foldl_weight_eq c.signals 35
  have h2 := foldl_weight_eq (c.signals ++ [s]) 35
  constructor
  · show min _ 99 ≤ min _ 99
    rw [h1, h2, List.map_append, List.sum_append]
    have := signalWeight_ge_ten s.signal_type
    simp only [List.map_cons, List.map_nil, List.sum_cons, List.sum_nil]
    exact min_le_min (by omega) le_rfl
  · exact Nat.min_le_right _ _

/-! ### Sortedness and membership of the intent sort -/

/-- The descending-intent order the endpoints sort by. -/
def intentGE (a b : Company) : Prop :=
  b.compute_buying_intent ≤ a.compute_buying_intent

lemma mem_insertDesc {x c : Company} {l : List Company} :
    x ∈ insertDesc c l ↔ x = c ∨ x ∈ l := by
  induction l with
  | nil => simp [insertDesc]
  | cons d ds ih =>
    rw [insertDesc]
    split
    · simp [List.mem_cons]
    · simp [List.mem_cons, ih]
      tauto

lemma mem_sortByIntentDesc {x : Company} {l : List Company} :
    x ∈ sortByIntentDesc l ↔ x ∈ l := by
  unfold sortByIntentDesc
  induction l with
  | nil => simp
  | cons c cs ih => simp [List.foldr_cons, mem_insertDesc, ih]

lemma sorted_insertDesc (c : Company) {l : List Company}
    (h : l.Sorted intentGE) : (insertDesc c l).Sorted intentGE := by
  induction l with
  | nil => simp [insertDesc]
  | cons d ds ih =>
    rw [insertDesc]
    rw [List.sorted_cons] at h
    obtain ⟨hhead, htail⟩ := h
    by_cases hd : d.compute_buying_intent ≤ c.compute_buying_intent
    · rw [if_pos hd, List.sorted_cons]
      refine ⟨fun x hx => ?_, List.sorted_cons.mpr ⟨hhead, htail⟩⟩
      rcases List.mem_cons.mp hx with rfl | hx
      · exact hd
      · exact le_trans (hhead x hx) hd
    · rw [if_neg hd, List.sorted_cons]
      refine ⟨fun x hx => ?_, ih htail⟩
      rcases mem_insertDesc.mp hx with rfl | hx
      · exact le_of_lt (Nat.lt_of_not_le hd)
      · exact hhead x hx

lemma sorted_sortByIntentDesc (l : List Company) :
    (sortByIntentDesc l).Sorted intentGE := by
  unfold sortByIntentDesc
  induction l with
  | nil => simp
  | cons c cs ih => exact sorted_insertDesc c ih

lemma sorted_map_intent (l : List Company) :
    ((sortByIntentDesc l).map (·.compute_buying_intent)).Sorted
      (fun a b : Nat => b ≤ a) :=
  List.pairwise_map.mpr (sorted_sortByIntentDesc l)

/-- Membership through a conditionally applied filter stage. -/
lemma mem_cond_filter {α : Type} (p : α → Bool) (cond : Prop) [Decidable cond]
    (l : List α) (x : α) (h : x ∈ if cond then l else l.filter p) :
    x ∈ l ∧ (¬ cond → p x = true) := by
  split at h
  · exact ⟨h, fun hn => absurd ‹cond› hn⟩
  · exact ⟨(List.mem_filter.mp h).1, fun _ => (List.mem_filter.mp h).2⟩

/-- C3: every company returned by `/api/companies` satisfies all
supplied predicates simultaneously — the case-insensitive substring
match on state and industry, exact equality on size, possession of at
least one signal of the requested type, and (when `min_intent` parses)
an intent score at least the threshold. -/
theorem get_companies_filters_sound :
    ∀ (db : List Company) (state industry size signal_type min_intent : String)
      (c : Company),
      c ∈ get_companies db state industry size signal_type min_intent →
      (state ≠ "" → ilikeContains c.state state = true) ∧
      (industry ≠ "" → ilikeContains c.industry industry = true) ∧
      (size ≠ "" → c.size = size) ∧
      (signal_type ≠ "" → ∃ s ∈ c.signals, s.signal_type = signal_type) ∧
      (∀ n : Int, min_intent ≠ "" → parsePyInt min_intent = some n →
        n ≤ (c.compute_buying_intent : Int)) := by
  intro db state industry size signal_type min_intent c hc
  rw [get_companies, mem_sortByIntentDesc] at hc
  have h5 : c ∈ filterSignalType (filterSize (filterIndustry (filterState db state)
        industry) size) signal_type ∧
      (∀ n : Int, min_intent ≠ "" → parsePyInt min_intent = some n →
        n ≤ (c.compute_buying_intent : Int)) := by
    rw [filterMinIntent] at hc
    split at hc
    · exact ⟨hc, fun n hne _ => absurd ‹min_intent = ""› hne⟩
    · split at hc
      · rename_i m hm
        refine ⟨(List.mem_filter.mp hc).1, fun n _ hn => ?_⟩
        rw [hm] at hn
        injection hn with hn
        subst hn
        exact of_decide_eq_true (List.mem_filter.mp hc).2
      · rename_i hm
        exact ⟨hc, fun n _ hn => by rw [hm] at hn; cases hn⟩
  obtain ⟨h4, hmin⟩ := h5
  rw [filterSignalType] at h4
  have h3 := mem_cond_filter _ _ _ _ h4
  rw [filterSize] at h3
  have h2 := mem_cond_filter _ _ _ _ h3.1
  rw [filterIndustry] at h2
  have h1 := mem_cond_filter _ _ _ _ h2.1
  rw [filterState] at h1
  have h0 := mem_cond_filter _ _ _ _ h1.1
  refine ⟨h0.2, h1.2, fun hs => ?_, fun ht => ?_, hmin⟩
  · exact eq_of_beq (h2.2 hs)
  · have := h3.2 ht
    rw [List.any_eq_true] at this
    obtain ⟨s, hs, hst⟩ := this
    exact ⟨s, hs, eq_of_beq hst⟩

/-- Company used as the default of list indexing in witnesses. -/
def emptyCompany : Company :=
  { id := 0, name := "", website := "", industry := "", size := "",
    revenue := "", country := "", state := "", city := "", signals := [] }

/-- Witness for C3 at a concrete request: the seeded Gulf Coast Refinery
Tech company is returned for `state=texas&signal_type=contract&min_intent=80`
and satisfies the supplied predicates. -/
theorem get_companies_filters_sound_witness :
    ilikeContains (seedCompanies.getD 6 emptyCompany).state "texas" = true ∧
    (∃ s ∈ (seedCompanies.getD 6 emptyCompany).signals, s.signal_type = "contract") ∧
    (80 : Int) ≤ ((seedCompanies.getD 6 emptyCompany).compute_buying_intent : Int) := by
  have h := get_companies_filters_sound seedCompanies "texas" "" "" "contract" "80"
      (seedCompanies.getD 6 emptyCompany) (by decide)
  exact ⟨h.1 (by decide), h.2.2.2.1 (by decide), h.2.2.2.2 80 (by decide) (by decide)⟩

/-- C6: both `/api/companies` and `/api/search` return their company
lists sorted in non-increasing order of computed buying intent, for
every request. -/
theorem endpoints_sorted_by_intent :
    ∀ (db : List Company) (state industry size signal_type min_intent rawQuery : String),
      ((get_companies db state industry size signal_type min_intent).map
        (·.compute_buying_intent)).Sorted (fun a b : Nat => b ≤ a) ∧
      ((aiSearchCompanies db rawQuery).map
        (·.compute_buying_intent)).Sorted (fun a b : Nat => b ≤ a) := by
  intro db state industry size signal_type min_intent rawQuery
  exact ⟨sorted_map_intent _, sorted_map_intent _⟩

/-- C4: seeding is idempotent — a non-empty store is left unchanged by
`init_sample_data`, and seeding an empty store twice yields the same
state as seeding it once. -/
theorem init_sample_data_idempotent :
    (∀ db : List Company, db ≠ [] → init_sample_data db = db) ∧
    init_sample_data (init_sample_data []) = init_sample_data [] := by
  constructor
  · intro db h
    rw [init_sample_data, if_neg (by simpa using h)]
  · rfl

/-- Witness for C4: the seeded store itself is left unchanged by a
second run of `init_sample_data`. -/
theorem init_sample_data_idempotent_witness :
    init_sample_data seedCompanies = seedCompanies :=
  init_sample_data_idempotent.1 seedCompanies (by decide)

/-- `filterMinIntent` is the identity when `int(min_intent)` raises
`ValueError` (including the absent / empty-string case). -/
lemma filterMinIntent_none (l : List Company) (m : String)
    (h : parsePyInt m = none) : filterMinIntent l m = l := by
  rw [filterMinIntent]
  split
  · rfl
  · simp [h]

/-- C7: malformed query parameters are silently ignored — when
`min_intent` does not parse as an integer, `/api/companies` returns
exactly what it returns with `min_intent` absent; and when the filters
match no company, the endpoint returns the empty list (no error). -/
theorem malformed_min_intent_ignored :
    (∀ (db : List Company) (state industry size signal_type min_intent : String),
       parsePyInt min_intent = none →
       get_companies db state industry size signal_type min_intent
         = get_companies db state industry size signal_type "") ∧
    (∀ (db : List Company) (state industry size signal_type min_intent : String),
       state ≠ "" → (∀ c ∈ db, ilikeContains c.state state = false) →
       get_companies db state industry size signal_type min_intent = []) := by
  constructor
  · intro db state industry size signal_type min_intent h
    rw [get_companies, get_companies, filterMinIntent_none _ _ h,
      filterMinIntent_none _ _ (by rfl)]
  · intro db state industry size signal_type min_intent hs hall
    have h1 : filterState db state = [] := by
      rw [filterState, if_neg hs]
      rw [List.filter_eq_nil_iff]
      intro c hc
      simp [hall c hc]
    rw [get_companies, h1]
    have h2 : ∀ i, filterIndustry [] i = [] := by
      intro i; rw [filterIndustry]; split <;> rfl
    have h3 : ∀ z, filterSize [] z = [] := by
      intro z; rw [filterSize]; split <;> rfl
    have h4 : ∀ t, filterSignalType [] t = [] := by
      intro t; rw [filterSignalType]; split <;> rfl
    have h5 : ∀ m, filterMinIntent [] m = [] := by
      intro m
      rw [filterMinIntent]
      split
      · rfl
      · split <;> rfl
    rw [h2, h3, h4, h5]
    rfl

/-- Witness for C7 at concrete inputs: an unparseable `min_intent` of
`"abc"` gives the same response as no `min_intent`, and an unmatched
state filter gives the empty list. -/
theorem malformed_min_intent_ignored_witness :
    get_companies seedCompanies "" "" "" "" "abc"
      = get_companies seedCompanies "" "" "" "" "" ∧
    get_companies seedCompanies "zz" "" "" "" "" = [] := by
  constructor
  · exact malformed_min_intent_ignored.1 seedCompanies "" "" "" "" "abc" (by decide)
  · exact malformed_min_intent_ignored.2 seedCompanies "zz" "" "" "" ""
      (by decide) (by decide)

/-- C8: after seeding, every HTTP endpoint leaves the store unchanged —
each route handler issues only ORM reads and returns the set of Company
and Signal rows it was given. -/
theorem endpoints_readonly :
    ∀ (db : List Company)
      (state industry size signal_type min_intent query_text rawQuery : String),
      (get_stats db).1 = db ∧
      (getCompaniesEndpoint db state industry size signal_type min_intent).1 = db ∧
      (getStatesEndpoint db).1 = db ∧
      (getIndustriesEndpoint db).1 = db ∧
      (getAiInsightsEndpoint db state industry signal_type query_text).1 = db ∧
      (aiSearchEndpoint db rawQuery).1 = db := by
  intro db state industry size signal_type min_intent query_text rawQuery
  exact ⟨rfl, rfl, rfl, rfl, rfl, rfl⟩

/-- C9: when the filters of `/api/ai-insights` match no company, the
insight scope silently falls back to the full dataset; consequently,
when the database is non-empty, the company set the insights are
computed over is never empty. -/
theorem ai_insights_scope_nonempty :
    ∀ (db : List Company) (state industry signal_type : String),
      (filterSignalType (filterIndustry (filterState db state) industry) signal_type = [] →
        scopedCompanies db state industry signal_type = db) ∧
      (db ≠ [] → scopedCompanies db state industry signal_type ≠ []) := by
  intro db state industry signal_type
  constructor
  · intro hf
    simp only [scopedCompanies]
    rw [if_pos (by rw [hf]; rfl)]
  · intro hdb
    simp only [scopedCompanies]
    split
    · exact hdb
    · rename_i h
      intro he
      exact h (by rw [he]; rfl)

/-- Witness for C9 at a concrete request: a state filter matching no
seeded company makes the scope fall back to the full seeded dataset,
which is non-empty. -/
theorem ai_insights_scope_nonempty_witness :
    scopedCompanies seedCompanies "zz" "" "" = seedCompanies ∧
    scopedCompanies seedCompanies "zz" "" "" ≠ [] :=
  ⟨(ai_insights_scope_nonempty seedCompanies "zz" "" "").1 (by decide),
   (ai_insights_scope_nonempty seedCompanies "zz" "" "").2 (by decide)⟩

/-- The Intent Overview block is always a single insight whose type is
"Intent Overview" (one of its two confidence variants). -/
lemma overviewInsight_singleton (cs : List Company) :
    ∃ q : ℚ, overviewInsight cs = [("Intent Overview", q)] := by
  rw [overviewInsight]
  split
  · exact ⟨mkRat 91 100, rfl⟩
  · exact ⟨mkRat 78 100, rfl⟩

/-- C10: `/api/ai-insights` always returns between 1 and 4 insights,
and an Intent Overview insight (in one of its two variants) is among
them. -/
theorem ai_insights_count :
    ∀ (db : List Company) (state industry signal_type query_text : String),
      1 ≤ (get_ai_insights db state industry signal_type query_text).length ∧
      (get_ai_insights db state industry signal_type query_text).length ≤ 4 ∧
      ∃ p ∈ get_ai_insights db state industry signal_type query_text,
        p.1 = "Intent Overview" := by
  intro db state industry signal_type query_text
  obtain ⟨q, hov⟩ := overviewInsight_singleton (scopedCompanies db state industry signal_type)
  simp only [get_ai_insights, hov, List.cons_append, List.nil_append]
  by_cases hq : query_text = ""
  · rw [if_pos hq, show (4:Nat) = 3+1 from rfl, List.take_succ_cons]
    refine ⟨by simp, ?_, ("Intent Overview", q), List.mem_cons_self _ _, rfl⟩
    simp only [List.length_cons, List.length_take]
    omega
  · rw [if_neg hq, show (4:Nat) = 3+1 from rfl, List.take_succ_cons,
      show (3:Nat) = 2+1 from rfl, List.take_succ_cons]
    refine ⟨by simp, ?_, ("Intent Overview", q),
      List.mem_cons_of_mem _ (List.mem_cons_self _ _), rfl⟩
    simp only [List.length_cons, List.length_take]
    omega

/-- `listSubset` is the membership-inclusion of its key in the
signal-type list. -/
lemma listSubset_iff (ks ts : List String) :
    listSubset ks ts = true ↔ ∀ k ∈ ks, k ∈ ts := by
  simp [listSubset, List.all_eq_true]

set_option maxRecDepth 10000 in
/-- C5 counterexample: the seeded Precision Automation Corp has
signal-type set {expansion, hiring}, which equals none of the five
mapped keys — the membership facts below separate it from each of
{hiring, contract}, {hiring}, {contract}, {expansion} and
{tech_mention} — yet `compute_ai_summary` returns the hiring paragraph,
not the default fallback paragraph the claim requires for a company
whose set matches no key. -/
theorem compute_ai_summary_claim_counterexample :
    "expansion" ∈ (seedCompanies.getD 1 emptyCompany).signal_types ∧
    "hiring" ∈ (seedCompanies.getD 1 emptyCompany).signal_types ∧
    "contract" ∉ (seedCompanies.getD 1 emptyCompany).signal_types ∧
    "tech_mention" ∉ (seedCompanies.getD 1 emptyCompany).signal_types ∧
    (seedCompanies.getD 1 emptyCompany).compute_ai_summary
      = summaryHiring (seedCompanies.getD 1 emptyCompany) ∧
    (seedCompanies.getD 1 emptyCompany).compute_ai_summary
      ≠ summaryDefault (seedCompanies.getD 1 emptyCompany) := by
  decide

/-- C5 amended: `compute_ai_summary` maps the company's signal-type set
to the paragraph of the first key (in dictionary insertion order
{hiring, contract}, {hiring}, {contract}, {expansion}, {tech_mention})
that is a SUBSET of the set; the default fallback paragraph is returned
exactly when no key is a subset, i.e. when the company has no signal of
any recognized type (no signals, or only unrecognized types). -/
theorem compute_ai_summary_subset_spec :
    ∀ c : Company,
      (("hiring" ∈ c.signal_types ∧ "contract" ∈ c.signal_types) →
        c.compute_ai_summary = summaryHiringContract c) ∧
      (("hiring" ∈ c.signal_types ∧ "contract" ∉ c.signal_types) →
        c.compute_ai_summary = summaryHiring c) ∧
      (("contract" ∈ c.signal_types ∧ "hiring" ∉ c.signal_types) →
        c.compute_ai_summary = summaryContract c) ∧
      (("expansion" ∈ c.signal_types ∧ "hiring" ∉ c.signal_types ∧
          "contract" ∉ c.signal_types) →
        c.compute_ai_summary = summaryExpansion c) ∧
      (("tech_mention" ∈ c.signal_types ∧ "hiring" ∉ c.signal_types ∧
          "contract" ∉ c.signal_types ∧ "expansion" ∉ c.signal_types) →
        c.compute_ai_summary = summaryTechMention c) ∧
      (("hiring" ∉ c.signal_types ∧ "contract" ∉ c.signal_types ∧
          "expansion" ∉ c.signal_types ∧ "tech_mention" ∉ c.signal_types) →
        c.compute_ai_summary = summaryDefault c) := by
  intro c
  have hsub : ∀ k : String, k ∈ c.signal_types →
      listSubset [k] c.signal_types = true := by
    intro k hk
    rw [listSubset_iff]
    intro k' hk'
    rcases List.mem_cons.mp hk' with rfl | h
    · exact hk
    · cases h
  have hnot : ∀ (ks : List String) (k : String), k ∈ ks → k ∉ c.signal_types →
      ¬ listSubset ks c.signal_types = true := by
    intro ks k hk hkn hall
    exact hkn ((listSubset_iff ks c.signal_types).mp hall k hk)
  refine ⟨fun ⟨h1, h2⟩ => ?_, fun ⟨h1, h2⟩ => ?_, fun ⟨h1, h2⟩ => ?_,
    fun ⟨h1, h2, h3⟩ => ?_, fun ⟨h1, h2, h3, h4⟩ => ?_, fun ⟨h1, h2, h3, h4⟩ => ?_⟩
  · have hA : listSubset ["hiring", "contract"] c.signal_types = true := by
      rw [listSubset_iff]
      intro k hk
      rcases List.mem_cons.mp hk with rfl | hk
      · exact h1
      rcases List.mem_cons.mp hk with rfl | hk
      · exact h2
      cases hk
    rw [Company.compute_ai_summary, if_pos hA]
  · rw [Company.compute_ai_summary,
      if_neg (hnot _ "contract" (by simp) h2), if_pos (hsub _ h1)]
  · rw [Company.compute_ai_summary,
      if_neg (hnot _ "hiring" (by simp) h2),
      if_neg (hnot _ "hiring" (by simp) h2), if_pos (hsub _ h1)]
  · rw [Company.compute_ai_summary,
      if_neg (hnot _ "hiring" (by simp) h2),
      if_neg (hnot _ "hiring" (by simp) h2),
      if_neg (hnot _ "contract" (by simp) h3), if_pos (hsub _ h1)]
  · rw [Company.compute_ai_summary,
      if_neg (hnot _ "hiring" (by simp) h2),
      if_neg (hnot _ "hiring" (by simp) h2),
      if_neg (hnot _ "contract" (by simp) h3),
      if_neg (hnot _ "expansion" (by simp) h4), if_pos (hsub _ h1)]
  · rw [Company.compute_ai_summary,
      if_neg (hnot _ "hiring" (by simp) h1),
      if_neg (hnot _ "hiring" (by simp) h1),
      if_neg (hnot _ "contract" (by simp) h2),
      if_neg (hnot _ "expansion" (by simp) h3),
      if_neg (hnot _ "tech_mention" (by simp) h4)]

/-- Witness for the amended C5: the seeded Advanced Manufacturing
Solutions company (signal types {hiring, contract}) receives the
hiring-plus-contract paragraph. -/
theorem compute_ai_summary_subset_spec_witness :
    (seedCompanies.getD 0 emptyCompany).compute_ai_summary
      = summaryHiringContract (seedCompanies.getD 0 emptyCompany) :=
  (compute_ai_summary_subset_spec (seedCompanies.getD 0 emptyCompany)).1
    ⟨by decide, by decide⟩

end AltitudeAI
